import Mathlib

/-!
Verification of the condor diffraction propagation engine
(`src/condor/experiment.py`, `src/condor/particle/particle_atoms.py`)
against its natural-language specification.

Numeric detector/source parameters are embedded as rationals (`ℚ`): the Python
code compares them with `!=`, i.e. by value, and no arithmetic is performed on
them by the caching logic.  Physics formulas are embedded over `ℝ`/`ℂ` as the
ideal-arithmetic reading of the floating-point code.  External collaborators
that the spec explicitly excludes from the core (the detector's
`generate_qmap`, the rotation similarity predicate, the `nfft` transform, the
analytic sphere form factor) are abstracted as function parameters: every
claim below holds, or fails, uniformly in them unless stated otherwise.
-/

namespace Condor

/-! ## Qmap cache (`Experiment.get_qmap`, experiment.py lines 439-476)

The cache `self._qmap_cache` is either the empty dict `{}` or a dict holding
the keys written at lines 457-468; it is replaced wholesale, so it is embedded
as `Option QmapCacheEntry`.  `Rot` is the rotation representation (only handed
to the similarity predicate, never inspected by the cache logic itself) and
`Q` the type of computed coordinate fields. -/

/-- The arguments of one call to `Experiment.get_qmap` (experiment.py line 440).
`extrinsic_rotation = none` embeds the Python argument `extrinsic_rotation=None`. -/
structure QmapCall (Rot : Type) where
  nx : ℚ
  ny : ℚ
  cx : ℚ
  cy : ℚ
  pixel_size : ℚ
  detector_distance : ℚ
  wavelength : ℚ
  extrinsic_rotation : Option Rot
  order : String

/-- One cache entry, the dict written at experiment.py lines 457-468. -/
structure QmapCacheEntry (Q Rot : Type) where
  qmap : Q
  nx : ℚ
  ny : ℚ
  cx : ℚ
  cy : ℚ
  pixel_size : ℚ
  detector_distance : ℚ
  wavelength : ℚ
  extrinsic_rotation : Option Rot
  order : String

/-- The chain of `calculate = calculate or ...` updates at experiment.py
lines 445-454, evaluated against a non-empty cache entry `e`.  The rotation
check (lines 453-454) runs only under `if extrinsic_rotation is not None`;
the cached rotation (possibly `None`) is passed to `is_similar` as is, so the
abstracted predicate has type `Rot → Option Rot → Bool`. -/
def qmapCalculate {Q Rot : Type} (isSimilar : Rot → Option Rot → Bool)
    (e : QmapCacheEntry Q Rot) (c : QmapCall Rot) : Bool :=
  decide (c.nx ≠ e.nx) ||
  decide (c.ny ≠ e.ny) ||
  decide (c.cx ≠ e.cx) ||
  decide (c.cy ≠ e.cy) ||
  decide (c.pixel_size ≠ e.pixel_size) ||
  decide (c.detector_distance ≠ e.detector_distance) ||
  decide (c.wavelength ≠ e.wavelength) ||
  decide (c.order ≠ e.order) ||
  (match c.extrinsic_rotation with
   | none => false
   | some r => !(isSimilar r e.extrinsic_rotation))

/-- The cache entry written at experiment.py lines 457-468 for a call `c`
whose generated coordinate field is `q`. -/
def entryOfCall {Q Rot : Type} (q : Q) (c : QmapCall Rot) : QmapCacheEntry Q Rot :=
  { qmap := q, nx := c.nx, ny := c.ny, cx := c.cx, cy := c.cy,
    pixel_size := c.pixel_size, detector_distance := c.detector_distance,
    wavelength := c.wavelength, extrinsic_rotation := c.extrinsic_rotation,
    order := c.order }

/-- `Experiment.get_qmap` (experiment.py lines 439-469) as a state-passing
function: given the detector's coordinate-field generator `gen` (external,
called at line 458 as `self.detector.generate_qmap(wavelength, cx, cy,
extrinsic_rotation, order)`), the rotation similarity predicate `isSimilar`
(external `Rotation.is_similar`), the current cache and the call arguments,
it returns the coordinate field together with the new cache state. -/
def get_qmap {Q Rot : Type} (gen : ℚ → ℚ → ℚ → Option Rot → String → Q)
    (isSimilar : Rot → Option Rot → Bool)
    (cache : Option (QmapCacheEntry Q Rot)) (c : QmapCall Rot) :
    Q × Option (QmapCacheEntry Q Rot) :=
  let calculate : Bool :=
    match cache with
    | none => true
    | some e => qmapCalculate isSimilar e c
  if calculate then
    let q := gen c.wavelength c.cx c.cy c.extrinsic_rotation c.order
    (q, some (entryOfCall q c))
  else
    match cache with
    | none => (gen c.wavelength c.cx c.cy c.extrinsic_rotation c.order,
               some (entryOfCall (gen c.wavelength c.cx c.cy c.extrinsic_rotation c.order) c))
    | some e => (e.qmap, some e)

/-- The cache-hit condition that `get_qmap` actually implements: every scalar
parameter and the axis order equal the cached values, and — only when a
rotation is supplied — the supplied rotation is similar to the cached one.
A call with `extrinsic_rotation = none` skips the rotation comparison
entirely, whatever rotation the cache entry was computed with. -/
def qmapCacheHit {Q Rot : Type} (isSimilar : Rot → Option Rot → Bool)
    (e : QmapCacheEntry Q Rot) (c : QmapCall Rot) : Prop :=
  c.nx = e.nx ∧ c.ny = e.ny ∧ c.cx = e.cx ∧ c.cy = e.cy ∧
  c.pixel_size = e.pixel_size ∧ c.detector_distance = e.detector_distance ∧
  c.wavelength = e.wavelength ∧ c.order = e.order ∧
  ∀ r, c.extrinsic_rotation = some r → isSimilar r e.extrinsic_rotation = true

/-- `Experiment.get_qmap_from_cache` (experiment.py lines 471-476): raises
("Cache empty!") on an empty cache, otherwise returns the cached field.
It takes no generator argument: it can not recompute anything. -/
def get_qmap_from_cache {Q Rot : Type} (cache : Option (QmapCacheEntry Q Rot)) :
    Except String Q :=
  match cache with
  | none => Except.error "Cache empty!"
  | some e => Except.ok e.qmap

/-! ## `ParticleAtoms.diameter_mean` (particle_atoms.py lines 266-271)

The property body is the single statement
`self._diameter_mean = 2*self.get_radius_of_gyration()` with no `return`
statement, so Python returns `None`.  The getter is embedded as a function
from the instance state (field `_diameter_mean`) and the value that
`get_radius_of_gyration()` returns, to the new state paired with the
returned value (`Option α`, where `none` embeds Python's `None`). -/

/-- The mutable state of a `ParticleAtoms` instance that the `diameter_mean`
getter touches: the private field `self._diameter_mean`. -/
structure ParticleAtomsState (α : Type) where
  _diameter_mean : Option α

/-- The `diameter_mean` property getter (particle_atoms.py lines 266-271):
assigns `2 * get_radius_of_gyration()` to `self._diameter_mean` and falls off
the end of the body, hence evaluates to `None`. -/
def diameter_mean {α : Type} [Mul α] [OfNat α 2]
    (p : ParticleAtomsState α) (radius_of_gyration : α) :
    ParticleAtomsState α × Option α :=
  ({ p with _diameter_mean := some (2 * radius_of_gyration) }, none)

/-! ## 3-D propagation configuration checks (`Experiment._propagate`, ndim=3)

For the error-handling claim only the control flow of `_propagate` with
`ndim=3` matters: which configurations reach `log_and_raise_error` before a
result dictionary is built.  The per-particle kernel computations are elided
(they are total in this model and cannot mask a later check).

Modelled from the spec: `log_and_raise_error` (condor.utils.log, not under
src/) raises an identifiable configuration error; it is embedded as
`Except.error` carrying a `ConfigError` tag, so the call aborts with no
result. -/

/-- The four particle model kinds dispatched on in `_propagate`
(experiment.py lines 226-370). -/
inductive ParticleModel where
  | sphere
  | spheroid
  | map
  | atoms
deriving DecidableEq

/-- Modelled from the spec: `log_and_raise_error` (condor.utils.log, not
under src/) raises an identifiable configuration error, embedded as
`Except.error` carrying one of these tags — the configuration errors of the
ndim=3 path of `_propagate`. -/
inductive ConfigError where
  | solid_angle_correction_3d
  | spheroid_3d
  | polarization_3d
deriving DecidableEq

/-- The particle loop of `_propagate` in 3-D mode, reduced to its
error behaviour: reaching a spheroid raises (experiment.py lines 252-254),
every other particle kind completes its kernel and the loop continues. -/
def check_particles_3d : List ParticleModel → Except ConfigError Unit
  | [] => Except.ok ()
  | p :: rest =>
    if p = ParticleModel.spheroid then Except.error ConfigError.spheroid_3d
    else check_particles_3d rest

/-- The ndim=3 control flow of `Experiment._propagate`:
solid-angle-correction check (experiment.py lines 206-208), then the particle
loop (lines 213-383, spheroid check at 252-254), then the polarization check
(lines 389-391).  `Except.ok ()` stands for reaching the result-building code
at line 408. -/
def propagate_3d (solid_angle_correction : Bool) (polarization : String)
    (particles : List ParticleModel) : Except ConfigError Unit :=
  if solid_angle_correction then Except.error ConfigError.solid_angle_correction_3d
  else
    match check_particles_3d particles with
    | Except.error e => Except.error e
    | Except.ok _ =>
      if polarization = "ignore" then Except.ok ()
      else Except.error ConfigError.polarization_3d

/-! ## Particle resampling loop (`Experiment._get_next_particles`,
experiment.py lines 155-169)

Each particle model contributes `get_next_number_of_particles()` particles
per sampling round; the while loop repeats rounds until the collected
dictionary is non-empty.  The models' successive draws are embedded as
functions from the round index to the drawn count, and the loop's result as
the total of the first round with a positive total, obtained by `Nat.find`
from the termination precondition. -/

/-- The number of particles collected in one round of the while loop of
`_get_next_particles`: the sum over all particle models of the count drawn
this round (experiment.py lines 158-163). -/
def roundTotal (models : List (ℕ → ℕ)) (t : ℕ) : ℕ :=
  (models.map (fun m => m t)).sum

/-- `Experiment._get_next_particles` (experiment.py lines 155-169), returning
the size of the particle dictionary of the first sampling round with a
positive total; the keys `"particle_%02i"` for `i = 0 .. N-1` are distinct,
so the dictionary size equals the round total.  The hypothesis is the spec's
precondition that sampling eventually yields a non-empty round. -/
def get_next_particles (models : List (ℕ → ℕ))
    (h : ∃ t, 0 < roundTotal models t) : ℕ :=
  roundTotal models (Nat.find h)

/-! ## Map-kernel input masking (`Experiment._propagate`, experiment.py
lines 294-313)

`qmap_shaped` is a flat list of rescaled reciprocal-space 3-vector samples.
`invalid_mask = ~((qmap_shaped>=-0.5) * (qmap_shaped<0.5))` is a
per-component mask; `qmap_shaped[invalid_mask] = 0.` zeroes exactly the
masked components; after the transform,
`fourier_pattern[invalid_mask.any(axis=1)] = numpy.nan` overwrites the output
of every sample with at least one masked component.  `none` embeds NaN; the
`nfft` transform is an abstract function parameter. -/

/-- Per-component validity test: component `x` of `invalid_mask`
(experiment.py line 297), `true` when `x` lies outside `[-0.5, 0.5)`. -/
def invalid_entry (x : ℚ) : Bool :=
  !(decide (-(1/2) ≤ x) && decide (x < 1/2))

/-- Per-sample invalidity: `invalid_mask.any(axis=1)` (experiment.py
line 311). -/
def invalid_sample (s : Fin 3 → ℚ) : Bool :=
  decide (∃ c, invalid_entry (s c) = true)

/-- `qmap_shaped[invalid_mask] = 0.` (experiment.py line 299): every
out-of-range component is replaced by `0`, in-range components are kept. -/
def mask_samples {ι : Type} (qs : ι → Fin 3 → ℚ) : ι → Fin 3 → ℚ :=
  fun i c => if invalid_entry (qs i c) then 0 else qs i c

/-- The map-kernel transform stage (experiment.py lines 297-311): mask the
samples, apply the non-uniform transform `nfft` to the masked samples, then
overwrite the output of every invalid sample with NaN (`none`). -/
def map_fourier_pattern {ι α : Type} (nfft : (ι → Fin 3 → ℚ) → ι → α)
    (qs : ι → Fin 3 → ℚ) : ι → Option α :=
  let pat := nfft (mask_samples qs)
  fun i => if invalid_sample (qs i) then none else some (pat i)

/-! ## `remove_from_dict` (experiment.py lines 571-577)

Python dictionaries with nested dictionary values are embedded as the mutual
inductive `PyDict`/`PyVal` (association lists; non-dict values are collapsed
to an integer payload, which the function never inspects).  The key test
`k.startswith(startswith)` is abstracted as a Boolean predicate `priv` on
keys, mirroring the function's `startswith` parameter.

The loop iterates over the snapshot `list(D.items())` while mutating `D`:
`processItems` threads the snapshot and the current dictionary state
separately.  For `del D[k]` followed by the access `D[k]` the model looks the
key up in the mutated state and fails (`Except.error ()`, a KeyError) when it
is gone; the recursive call `remove_from_dict(D[k])` descends into the
snapshot value `v`, which is the object `D[k]` refers to whenever the key is
still present, since keys of a Python dict are unique and the loop body is
the only writer of key `k`. -/

mutual
/-- A Python value stored in a dictionary: a nested dictionary or any
non-dictionary payload (collapsed to `ℤ`). -/
inductive PyVal (α : Type) : Type where
  | int : ℤ → PyVal α
  | dict : PyDict α → PyVal α
/-- A Python dictionary with keys `α`, as an ordered association list. -/
inductive PyDict (α : Type) : Type where
  | nil : PyDict α
  | cons : α → PyVal α → PyDict α → PyDict α
end

/-- `del D[k]`: remove the (unique) binding of `key`. -/
def PyDict.erase {α : Type} [DecidableEq α] : PyDict α → α → PyDict α
  | .nil, _ => .nil
  | .cons k v rest, key => if k = key then rest else .cons k v (rest.erase key)

/-- Dictionary lookup `D[key]`, `none` when the key is absent. -/
def PyDict.find? {α : Type} [DecidableEq α] : PyDict α → α → Option (PyVal α)
  | .nil, _ => none
  | .cons k v rest, key => if k = key then some v else rest.find? key

/-- Overwrite the value of the (unique) binding of `key`. -/
def PyDict.setVal {α : Type} [DecidableEq α] : PyDict α → α → PyVal α → PyDict α
  | .nil, _, _ => .nil
  | .cons k v rest, key, nv =>
    if k = key then .cons k nv rest else .cons k v (rest.setVal key nv)

/-- Concatenation of association lists. -/
def PyDict.append {α : Type} : PyDict α → PyDict α → PyDict α
  | .nil, d => d
  | .cons k v rest, d => .cons k v (rest.append d)

/-- `key in D`. -/
def PyDict.hasKey {α : Type} [DecidableEq α] : PyDict α → α → Bool
  | .nil, _ => false
  | .cons k _ rest, key => decide (k = key) || rest.hasKey key

mutual
/-- The recursive call `remove_from_dict(D[k])` of experiment.py line 576,
on a value: on a nested dictionary it re-enters the item loop (snapshot =
state = that dictionary); the `.int` branch is unreachable from
`processItems`, which only recurses under the `isinstance(v, dict)` guard. -/
def removeVal {α : Type} [DecidableEq α] (priv : α → Bool) :
    PyVal α → Except Unit (PyVal α)
  | .int n => Except.ok (.int n)
  | .dict sub =>
    match processItems priv sub sub with
    | Except.error e => Except.error e
    | Except.ok d => Except.ok (.dict d)
/-- The loop of `remove_from_dict` (experiment.py lines 572-576) over the
snapshot `list(D.items())` (first argument) while threading the mutated
dictionary state (second argument): for each snapshot item `(k, v)`, delete
`k` from the state when `priv k`; then, when `v` is a dictionary, access the
state's current `D[k]` (KeyError, i.e. `Except.error ()`, if it was just
deleted) and recurse into it, writing the cleaned value back.  The recursion
descends into the snapshot value `v`, which is the object `D[k]` refers to
whenever the key is still present, since keys of a Python dict are unique and
the loop body is the only writer of key `k`. -/
def processItems {α : Type} [DecidableEq α] (priv : α → Bool) :
    PyDict α → PyDict α → Except Unit (PyDict α)
  | .nil, st => Except.ok st
  | .cons k v rest, st =>
    let st1 := if priv k then st.erase k else st
    match v with
    | .int _ => processItems priv rest st1
    | .dict _ =>
      match st1.find? k with
      | none => Except.error ()
      | some _ =>
        match removeVal priv v with
        | Except.error e => Except.error e
        | Except.ok vNew => processItems priv rest (st1.setVal k vNew)
end

/-- `remove_from_dict(D, startswith)` (experiment.py lines 571-577): iterate
over the snapshot of `D`'s items starting from the state `D` itself. -/
def remove_from_dict {α : Type} [DecidableEq α] (priv : α → Bool)
    (d : PyDict α) : Except Unit (PyDict α) :=
  processItems priv d d

mutual
/-- Value part of `cleanDict`. -/
def cleanVal {α : Type} (priv : α → Bool) : PyVal α → PyVal α
  | .int n => .int n
  | .dict sub => .dict (cleanDict priv sub)
/-- The dictionary-cleaning function as the spec's words describe it: every
`priv` key is removed at every nesting level, every other key is preserved
with its value (nested dictionaries cleaned recursively, order kept). -/
def cleanDict {α : Type} (priv : α → Bool) : PyDict α → PyDict α
  | .nil => .nil
  | .cons k v rest =>
    if priv k then cleanDict priv rest
    else .cons k (cleanVal priv v) (cleanDict priv rest)
end

mutual
/-- Value part of `okDict`: a binding `k ↦ v` is safe when `v` is not a
dictionary, or `k` is not a `priv` key and the nested dictionary is safe. -/
def okVal {α : Type} (priv : α → Bool) : α → PyVal α → Bool
  | _, .int _ => true
  | k, .dict sub => !(priv k) && okDict priv sub
/-- No `priv` key maps to a dictionary value, at any nesting level: the
inputs on which `remove_from_dict` does not raise a KeyError. -/
def okDict {α : Type} (priv : α → Bool) : PyDict α → Bool
  | .nil => true
  | .cons k v rest => okVal priv k v && okDict priv rest
end

mutual
/-- Value part of `keysNodup`. -/
def nodupVal {α : Type} [DecidableEq α] : PyVal α → Bool
  | .int _ => true
  | .dict sub => keysNodup sub
/-- Keys are pairwise distinct at every nesting level (true of every Python
dictionary). -/
def keysNodup {α : Type} [DecidableEq α] : PyDict α → Bool
  | .nil => true
  | .cons k v rest => !(rest.hasKey k) && nodupVal v && keysNodup rest
end

/-- No key of `d` occurs in `pre`. -/
def keysDisjoint {α : Type} [DecidableEq α] (pre : PyDict α) : PyDict α → Bool
  | .nil => true
  | .cons k _ rest => !(pre.hasKey k) && keysDisjoint pre rest

/-! ## Sphere kernel (`Experiment._propagate`, experiment.py lines 219-248)

The amplitude field of a uniform-sphere particle, over ideal real arithmetic.
Pixels are an abstract index type `P`; the scattering-vector field `qmap`
assigns each pixel a 3-vector; `Omega_p` is the per-pixel solid angle (a
constant function when `solid_angle_correction` is off, line 231).  The
analytic form factor `condor.utils.sphere_diffraction.F_sphere_diffraction`
(not under src/; the spec describes it only as a closed-form function of
`(K, q, R)`) is an abstract function parameter `Fsd`. -/

/-- The primary wave amplitude `F0 = sqrt(I_0)*2*numpy.pi/wavelength**2`
(experiment.py line 221). -/
noncomputable def primary_wave_amplitude (I_0 wavelength : ℝ) : ℝ :=
  Real.sqrt I_0 * 2 * Real.pi / wavelength ^ 2

/-- The sphere-kernel amplitude field (experiment.py lines 234-248):
`q = numpy.sqrt((qmap**2).sum(axis=ndim))`, `R = diameter/2.`,
`V = 4/3.*numpy.pi*R**3`, `K = (F0*V*dn)**2`,
`F = F_sphere_diffraction(K, q, R) * numpy.sqrt(Omega_p)`. -/
noncomputable def sphere_pattern {P : Type} (Fsd : ℝ → ℝ → ℝ → ℝ)
    (F0 dn diameter : ℝ) (Omega_p : P → ℝ) (qmap : P → Fin 3 → ℝ) : P → ℝ :=
  let q : P → ℝ := fun p => Real.sqrt (∑ i, qmap p i ^ 2)
  let R : ℝ := diameter / 2
  let V : ℝ := 4 / 3 * Real.pi * R ^ 3
  let K : ℝ := (F0 * V * dn) ^ 2
  fun p => Fsd K (q p) R * Real.sqrt (Omega_p p)

/-- The sphere amplitude field as the claim words it: the analytic sphere form
factor evaluated at `(K, q, R)` multiplied pointwise by the square root of the
per-pixel solid angle, where `R` is half the particle diameter, `q` is the
pointwise Euclidean norm of the scattering-vector field, `K = (F0·V·Δn)²`
with `V = 4/3·π·R³` and `F0 = sqrt(incident fluence)·2π/wavelength²`. -/
noncomputable def sphere_pattern_claimed {P : Type} (Fsd : ℝ → ℝ → ℝ → ℝ)
    (fluence wavelength dn diameter : ℝ) (Omega_p : P → ℝ)
    (qmap : P → Fin 3 → ℝ) : P → ℝ :=
  fun p =>
    let R : ℝ := diameter / 2
    let q : ℝ := Real.sqrt (∑ i, qmap p i ^ 2)
    let F0 : ℝ := Real.sqrt fluence * (2 * Real.pi / wavelength ^ 2)
    let V : ℝ := 4 / 3 * Real.pi * R ^ 3
    let K : ℝ := (F0 * V * dn) ^ 2
    Fsd K q R * Real.sqrt (Omega_p p)

/-! ## Position phase factor and coherent superposition
(`Experiment._propagate`, experiment.py lines 210-211 and 375-383)

For each particle with position offset `v`, the code multiplies its amplitude
field by `exp(-1j*(v[0]*qmap0[..,0]+v[1]*qmap0[..,1]+v[2]*qmap0[..,2]))` on
the unrotated field `qmap0` — but only when `not numpy.allclose(v,
numpy.zeros_like(v), atol=1E-12)`, i.e. only when some component of `v`
exceeds `1e-12` in absolute value (`numpy.allclose` with zero reference and
`atol=1E-12` holds exactly when every `|v i| ≤ 1e-12`).  The adjusted fields
are then accumulated into `F_tot`, starting from `F_tot = 0.`. -/

open Classical in
/-- The phase-factor step (experiment.py lines 375-381) for one particle:
amplitude field `F`, position offset `v`, unrotated scattering-vector field
`qmap0`. -/
noncomputable def applyPhase {P : Type} (v : Fin 3 → ℝ) (qmap0 : P → Fin 3 → ℝ)
    (F : P → ℂ) : P → ℂ :=
  if ∀ i, |v i| ≤ 1e-12 then F
  else fun p => F p * Complex.exp (-Complex.I * ((∑ i, v i * qmap0 p i : ℝ) : ℂ))

/-- The superposition loop (experiment.py lines 210-211, 375-383):
`F_tot = 0.`, then for each particle `(v, F)` in order,
`F_tot = F_tot + applyPhase v qmap0 F`. -/
noncomputable def superimpose {P : Type} (qmap0 : P → Fin 3 → ℝ)
    (parts : List ((Fin 3 → ℝ) × (P → ℂ))) : P → ℂ :=
  parts.foldl (fun Ftot part => fun p => Ftot p + applyPhase part.1 qmap0 part.2 p)
    (fun _ => 0)

/-! ## Concrete instances for the qmap-cache examples

A tiny environment instantiating the abstract external collaborators of the
cache logic: rotations are `Bool`, coordinate fields are `Option Bool`, the
generator returns the rotation it was handed (so recomputation is observable),
and the similarity predicate never holds (every pair of rotations counts as
differing beyond the similarity tolerance). -/

/-- Example coordinate-field generator: the field records the rotation the
generator was called with. -/
def exGen : ℚ → ℚ → ℚ → Option Bool → String → Option Bool :=
  fun _ _ _ rot _ => rot

/-- Example similarity predicate: no two rotations are similar. -/
def exNeverSimilar : Bool → Option Bool → Bool := fun _ _ => false

/-- Example cache entry: produced by a `get_qmap` call with rotation
`some true` (its field `exGen _ _ _ (some true) _ = some true` records it). -/
def exEntry : QmapCacheEntry (Option Bool) Bool :=
  { qmap := some true, nx := 1, ny := 1, cx := 0, cy := 0, pixel_size := 1,
    detector_distance := 1, wavelength := 1, extrinsic_rotation := some true,
    order := "xyz" }

/-- Example call: identical to `exEntry` in all scalar parameters and the
axis order, but with no rotation supplied (`extrinsic_rotation=None`). -/
def exCallNone : QmapCall Bool :=
  { nx := 1, ny := 1, cx := 0, cy := 0, pixel_size := 1,
    detector_distance := 1, wavelength := 1, extrinsic_rotation := none,
    order := "xyz" }

/-- Example call: identical to `exEntry` in all parameters, rotation
`some true` supplied. -/
def exCallSome : QmapCall Bool :=
  { nx := 1, ny := 1, cx := 0, cy := 0, pixel_size := 1,
    detector_distance := 1, wavelength := 1,
    extrinsic_rotation := some true, order := "xyz" }

/-- Example similarity predicate: any two rotations are similar. -/
def exAlwaysSimilar : Bool → Option Bool → Bool := fun _ _ => true

/-! # Theorems -/

/-- C10: reading the `ParticleAtoms.diameter_mean` property evaluates to
`None` for every instance — the getter assigns twice the radius of gyration
to the internal `_diameter_mean` field but returns no value, so any caller
that uses `diameter_mean` as a number receives `None` rather than the
particle's diameter estimate. -/
theorem diameter_mean_returns_none {α : Type} [Mul α] [OfNat α 2]
    (p : ParticleAtomsState α) (radius_of_gyration : α) :
    (diameter_mean p radius_of_gyration).2 = none ∧
    (diameter_mean p radius_of_gyration).1._diameter_mean
      = some (2 * radius_of_gyration) :=
  ⟨rfl, rfl⟩

/-- C8: `Experiment.get_qmap_from_cache` raises the identifiable error
"Cache empty!" when queried while no qmap computation has ever happened, and
otherwise returns the cached coordinate field; it has no access to the
generator, so it can not trigger any recomputation. -/
theorem get_qmap_from_cache_spec {Q Rot : Type}
    (cache : Option (QmapCacheEntry Q Rot)) :
    (cache = none → get_qmap_from_cache cache = Except.error "Cache empty!") ∧
    (∀ e, cache = some e → get_qmap_from_cache cache = Except.ok e.qmap) := by
  refine ⟨fun h => ?_, fun e h => ?_⟩
  · subst h; rfl
  · subst h; rfl

/-- Witness for C8 at a concrete cache state. -/
theorem get_qmap_from_cache_spec_witness :
    get_qmap_from_cache
        (none : Option (QmapCacheEntry (Option Bool) Bool))
        = Except.error "Cache empty!" ∧
    get_qmap_from_cache (some exEntry) = Except.ok (some true) :=
  ⟨(get_qmap_from_cache_spec none).1 rfl,
   (get_qmap_from_cache_spec (some exEntry)).2 exEntry rfl⟩

/-- Helper: the 3-D particle loop raises the spheroid configuration error as
soon as the particle list contains a spheroid. -/
theorem check_particles_3d_err {parts : List ParticleModel}
    (h : ParticleModel.spheroid ∈ parts) :
    check_particles_3d parts = Except.error ConfigError.spheroid_3d := by
  induction parts with
  | nil => cases h
  | cons p rest ih =>
    by_cases hp : p = ParticleModel.spheroid
    · simp [check_particles_3d, hp]
    · rcases List.mem_cons.mp h with h1 | h2
      · exact absurd h1.symm hp
      · simp [check_particles_3d, hp, ih h2]

/-- C2: propagation in 3-D mode raises a configuration error in each of the
three unsupported configurations — the detector's solid_angle_correction flag
is `True`, some particle is a spheroid, or the source's polarization mode is
not "ignore" — and in each case the call aborts without returning a
result. -/
theorem propagate_3d_config_errors (solid_angle_correction : Bool)
    (polarization : String) (particles : List ParticleModel)
    (h : solid_angle_correction = true ∨ ParticleModel.spheroid ∈ particles ∨
         polarization ≠ "ignore") :
    ∃ e, propagate_3d solid_angle_correction polarization particles
           = Except.error e := by
  cases solid_angle_correction with
  | true => exact ⟨ConfigError.solid_angle_correction_3d, rfl⟩
  | false =>
    rcases h with h | h | h
    · exact absurd h (by simp)
    · exact ⟨ConfigError.spheroid_3d, by simp [propagate_3d, check_particles_3d_err h]⟩
    · cases hcp : check_particles_3d particles with
      | error e => exact ⟨e, by simp [propagate_3d, hcp]⟩
      | ok u => exact ⟨ConfigError.polarization_3d, by simp [propagate_3d, hcp, h]⟩

/-- Witness for C2: each of the three unsupported configurations, concretely. -/
theorem propagate_3d_config_errors_witness :
    (∃ e, propagate_3d true "ignore" [] = Except.error e) ∧
    (∃ e, propagate_3d false "ignore"
            [ParticleModel.sphere, ParticleModel.spheroid] = Except.error e) ∧
    (∃ e, propagate_3d false "vertical" [ParticleModel.sphere]
            = Except.error e) :=
  ⟨propagate_3d_config_errors true "ignore" [] (Or.inl rfl),
   propagate_3d_config_errors false "ignore" _ (Or.inr (Or.inl (by simp))),
   propagate_3d_config_errors false "vertical" _ (Or.inr (Or.inr (by decide)))⟩

/-- C9: `Experiment._get_next_particles` never returns an empty particle set:
rounds with zero particles are retried without error, and under the
precondition that some sampling round yields at least one particle, the loop
terminates with the (non-empty) total of the first such round. -/
theorem get_next_particles_nonempty (models : List (ℕ → ℕ))
    (h : ∃ t, 0 < roundTotal models t) :
    0 < get_next_particles models h ∧
      ∀ t, t < Nat.find h → roundTotal models t = 0 := by
  constructor
  · exact Nat.find_spec h
  · intro t ht
    have := Nat.find_min h ht
    omega

/-- Witness for C9: a model stream that misses in round 0 and yields one
particle in round 1. -/
theorem get_next_particles_nonempty_witness :
    0 < get_next_particles [fun t => t] ⟨1, by decide⟩ :=
  (get_next_particles_nonempty [fun t => t] ⟨1, by decide⟩).1

/-- Helper: the superposition fold evaluated pointwise from an arbitrary
accumulator. -/
theorem superimpose_foldl {P : Type} (qmap0 : P → Fin 3 → ℝ)
    (parts : List ((Fin 3 → ℝ) × (P → ℂ))) (acc : P → ℂ) (p : P) :
    (parts.foldl
        (fun Ftot part => fun p => Ftot p + applyPhase part.1 qmap0 part.2 p)
        acc) p
      = acc p + (parts.map (fun part => applyPhase part.1 qmap0 part.2 p)).sum := by
  induction parts generalizing acc with
  | nil => simp
  | cons a rest ih => simp [List.foldl_cons, ih, add_assoc]

/-- C6: the total amplitude field is the pointwise complex sum of the
individual per-particle amplitude fields (amplitudes, never intensities, are
accumulated before detection), and the accumulation is order-independent: for
any two particles A and B, summing A then B yields exactly the same total as
summing B then A. -/
theorem superimpose_sum_comm {P : Type} (qmap0 : P → Fin 3 → ℝ) :
    (∀ (parts : List ((Fin 3 → ℝ) × (P → ℂ))) (p : P),
        superimpose qmap0 parts p
          = (parts.map (fun part => applyPhase part.1 qmap0 part.2 p)).sum) ∧
    (∀ A B, superimpose qmap0 [A, B] = superimpose qmap0 [B, A]) := by
  constructor
  · intro parts p
    simpa using superimpose_foldl qmap0 parts (fun _ => 0) p
  · intro A B
    funext p
    have hAB := superimpose_foldl qmap0 [A, B] (fun _ => 0) p
    have hBA := superimpose_foldl qmap0 [B, A] (fun _ => 0) p
    simp only [superimpose, hAB, hBA, List.map_cons, List.map_nil,
      List.sum_cons, List.sum_nil]
    ring

/-- C3: for every sphere particle, the computed amplitude field equals the
analytic sphere form factor evaluated at `(K, q, R)` multiplied pointwise by
the square root of the per-pixel solid angle, where `R` is half the particle
diameter, `q` is the pointwise Euclidean norm of the scattering-vector field,
`K = (F0·V·Δn)²` with `V = 4/3·π·R³`, `Δn` the refractive-index decrement,
and `F0 = sqrt(incident fluence)·2π/wavelength²`. -/
theorem sphere_pattern_matches_claim {P : Type} (Fsd : ℝ → ℝ → ℝ → ℝ)
    (I_0 wavelength dn diameter : ℝ) (Omega_p : P → ℝ)
    (qmap : P → Fin 3 → ℝ) :
    sphere_pattern Fsd (primary_wave_amplitude I_0 wavelength) dn diameter
        Omega_p qmap
      = sphere_pattern_claimed Fsd I_0 wavelength dn diameter Omega_p qmap := by
  funext p
  simp only [sphere_pattern, sphere_pattern_claimed, primary_wave_amplitude]
  congr 2
  ring

/-- Helper: the per-component mask bit, as a proposition about the
component's value. -/
theorem invalid_entry_iff (x : ℚ) :
    invalid_entry x = true ↔ ¬(-(1/2) ≤ x ∧ x < 1/2) := by
  unfold invalid_entry
  constructor
  · intro h hand
    rw [decide_eq_true hand.1, decide_eq_true hand.2] at h
    simp at h
  · intro h
    by_cases h1 : -(1/2 : ℚ) ≤ x
    · have h2 : ¬(x < 1/2) := fun h2 => h ⟨h1, h2⟩
      rw [decide_eq_true h1, decide_eq_false h2]
      rfl
    · rw [decide_eq_false h1]
      rfl

/-- Helper: the per-sample mask bit, as a proposition about the sample. -/
theorem invalid_sample_iff (s : Fin 3 → ℚ) :
    invalid_sample s = true ↔ ∃ c, invalid_entry (s c) = true := by
  simp [invalid_sample]

/-- C4 counterexample: the rescaled sample `(7/10, 3/10, 1/10)` has its first
component outside `[-0.5, 0.5)`, so the claim says the whole sample is set to
zero before the transform; the code zeroes only the offending component, and
the masked sample `(0, 3/10, 1/10)` is not the zero vector. -/
theorem mask_samples_keeps_inrange_components :
    invalid_sample ![(7 : ℚ)/10, 3/10, 1/10] = true ∧
    mask_samples (fun _ : Unit => ![(7 : ℚ)/10, 3/10, 1/10]) ()
      ≠ (fun _ => (0 : ℚ)) := by
  have h0 : invalid_entry ((7 : ℚ)/10) = true := by
    rw [invalid_entry_iff]; norm_num
  have h1 : invalid_entry ((3 : ℚ)/10) = false := by
    rw [Bool.eq_false_iff, Ne, invalid_entry_iff]; norm_num
  constructor
  · exact (invalid_sample_iff _).mpr ⟨0, by simpa using h0⟩
  · intro hz
    have hv : mask_samples (fun _ : Unit => ![(7 : ℚ)/10, 3/10, 1/10]) () 1
        = 3/10 := by
      simp [mask_samples, h1]
    rw [hz] at hv
    exact absurd hv (by norm_num)

/-- C4 (amended): in the map kernel, every out-of-range component of a
rescaled reciprocal-space sample is set to zero before the non-uniform
Fourier transform (in-range components of the same sample are kept), after
the transform the output element of every sample with any out-of-range
component is NaN, and all other output elements are exactly the transform's
values at the masked samples; the call produces a full result. -/
theorem map_fourier_pattern_spec {ι α : Type}
    (nfft : (ι → Fin 3 → ℚ) → ι → α) (qs : ι → Fin 3 → ℚ) (i : ι) :
    (invalid_sample (qs i) = true → map_fourier_pattern nfft qs i = none) ∧
    (invalid_sample (qs i) = false →
       map_fourier_pattern nfft qs i = some (nfft (mask_samples qs) i) ∧
       ∀ c, mask_samples qs i c = qs i c) ∧
    (∀ c, invalid_entry (qs i c) = true → mask_samples qs i c = 0) ∧
    (∀ c, invalid_entry (qs i c) = false → mask_samples qs i c = qs i c) := by
  refine ⟨fun h => ?_, fun h => ⟨?_, fun c => ?_⟩, fun c hc => ?_, fun c hc => ?_⟩
  · simp [map_fourier_pattern, h]
  · simp [map_fourier_pattern, h]
  · have hc : invalid_entry (qs i c) = false := by
      by_contra hcc
      have : invalid_sample (qs i) = true := by
        simp only [invalid_sample, decide_eq_true_eq]
        exact ⟨c, by simpa using hcc⟩
      simp [this] at h
    simp [mask_samples, hc]
  · simp [mask_samples, hc]
  · simp [mask_samples, hc]

/-- Witness for C4 at a concrete sample list: one invalid sample (output NaN)
and one valid sample (output = transform value, sample untouched). -/
theorem map_fourier_pattern_spec_witness :
    map_fourier_pattern (fun _ _ => (0 : ℚ)) (fun _ : Unit => ![(1 : ℚ), 0, 0]) ()
        = none ∧
    map_fourier_pattern (fun _ _ => (0 : ℚ)) (fun _ : Unit => ![(0 : ℚ), 0, 0]) ()
        = some 0 :=
  ⟨(map_fourier_pattern_spec (fun _ _ => (0 : ℚ))
      (fun _ : Unit => ![(1 : ℚ), 0, 0]) ()).1
      (by norm_num [invalid_sample, invalid_entry,
        Decidable.not_and_iff_or_not, Fin.exists_fin_succ]),
   ((map_fourier_pattern_spec (fun _ _ => (0 : ℚ))
      (fun _ : Unit => ![(0 : ℚ), 0, 0]) ()).2.1
      (by norm_num [invalid_sample, invalid_entry,
        Decidable.not_and_iff_or_not, Fin.forall_fin_succ])).1⟩

/-- Helper: the `calculate` flag of `get_qmap` is `false` exactly on the
implemented cache-hit condition. -/
theorem qmapCalculate_false_iff {Q Rot : Type}
    (isSimilar : Rot → Option Rot → Bool) (e : QmapCacheEntry Q Rot)
    (c : QmapCall Rot) :
    qmapCalculate isSimilar e c = false ↔ qmapCacheHit isSimilar e c := by
  unfold qmapCalculate qmapCacheHit
  cases hr : c.extrinsic_rotation with
  | none => simp [hr, and_assoc]
  | some r => simp [hr, and_assoc]

/-- C1 (amended): `Experiment.get_qmap` returns the cached coordinate field
unchanged, leaving the cache untouched, exactly when the cache is non-empty,
every one of nx, ny, cx, cy, pixel_size, detector_distance, wavelength and
axis order equals the cached value, and either no rotation is supplied (the
rotation comparison is skipped entirely in that case, whatever the cached
rotation is) or the supplied rotation is similar to the cached one; in every
other case (empty cache included) the field is recomputed from the supplied
parameters and the cache entry is replaced wholesale.  On a hit whose
supplied rotation moreover coincides with the cached one, the returned field
is identical to direct recomputation, provided the entry records the field
generated from its own stored parameters. -/
theorem get_qmap_cache_behaviour {Q Rot : Type}
    (gen : ℚ → ℚ → ℚ → Option Rot → String → Q)
    (isSimilar : Rot → Option Rot → Bool)
    (e : QmapCacheEntry Q Rot) (c : QmapCall Rot) :
    (qmapCacheHit isSimilar e c →
       get_qmap gen isSimilar (some e) c = (e.qmap, some e)) ∧
    (¬qmapCacheHit isSimilar e c →
       get_qmap gen isSimilar (some e) c
         = (gen c.wavelength c.cx c.cy c.extrinsic_rotation c.order,
            some (entryOfCall
              (gen c.wavelength c.cx c.cy c.extrinsic_rotation c.order) c))) ∧
    get_qmap gen isSimilar none c
       = (gen c.wavelength c.cx c.cy c.extrinsic_rotation c.order,
          some (entryOfCall
            (gen c.wavelength c.cx c.cy c.extrinsic_rotation c.order) c)) ∧
    (qmapCacheHit isSimilar e c →
       c.extrinsic_rotation = e.extrinsic_rotation →
       e.qmap = gen e.wavelength e.cx e.cy e.extrinsic_rotation e.order →
       (get_qmap gen isSimilar (some e) c).1
         = gen c.wavelength c.cx c.cy c.extrinsic_rotation c.order) := by
  refine ⟨fun h => ?_, fun h => ?_, rfl, fun h hrot hq => ?_⟩
  · have hc : qmapCalculate isSimilar e c = false :=
      (qmapCalculate_false_iff isSimilar e c).mpr h
    simp [get_qmap, hc]
  · have hc : qmapCalculate isSimilar e c = true := by
      rcases Bool.eq_false_or_eq_true (qmapCalculate isSimilar e c) with ht | hf
      · exact ht
      · exact absurd ((qmapCalculate_false_iff isSimilar e c).mp hf) h
    simp [get_qmap, hc]
  · have hc : qmapCalculate isSimilar e c = false :=
      (qmapCalculate_false_iff isSimilar e c).mpr h
    obtain ⟨_, _, hcx, hcy, _, _, hwl, hord, _⟩ := h
    simp only [get_qmap, hc, Bool.false_eq_true, if_false]
    rw [hq, ← hwl, ← hcx, ← hcy, ← hord, ← hrot]

/-- C1 counterexample: with every scalar parameter and the axis order equal to
the cached values but the supplied rotation (`None`) differing from the
cached one (`some true`) — and a similarity predicate under which no two
rotations are similar — `get_qmap` still returns the cached field and leaves
the cache entry in place, although direct recomputation at the supplied
parameters would give a different field.  This refutes the claim that the
field is recomputed and the cache replaced whenever any parameter, the
rotation included, differs. -/
theorem get_qmap_stale_rotation_counterexample :
    exCallNone.extrinsic_rotation ≠ exEntry.extrinsic_rotation ∧
    get_qmap exGen exNeverSimilar (some exEntry) exCallNone
      = (exEntry.qmap, some exEntry) ∧
    exGen exCallNone.wavelength exCallNone.cx exCallNone.cy
        exCallNone.extrinsic_rotation exCallNone.order ≠ exEntry.qmap := by
  refine ⟨by simp [exCallNone, exEntry], rfl, by simp [exGen, exCallNone, exEntry]⟩

/-- Witness for C1: a concrete cache hit returning the cached entry, a
concrete miss (rotation supplied, not similar) recomputing and replacing the
entry, and a concrete exact-parameter hit returning the recomputation
value. -/
theorem get_qmap_cache_behaviour_witness :
    get_qmap exGen exNeverSimilar (some exEntry) exCallNone
        = (exEntry.qmap, some exEntry) ∧
    get_qmap exGen exNeverSimilar (some exEntry) exCallSome
        = (exGen exCallSome.wavelength exCallSome.cx exCallSome.cy
             exCallSome.extrinsic_rotation exCallSome.order,
           some (entryOfCall
             (exGen exCallSome.wavelength exCallSome.cx exCallSome.cy
               exCallSome.extrinsic_rotation exCallSome.order) exCallSome)) ∧
    (get_qmap exGen exAlwaysSimilar (some exEntry) exCallSome).1
        = exGen exCallSome.wavelength exCallSome.cx exCallSome.cy
            exCallSome.extrinsic_rotation exCallSome.order :=
  ⟨(get_qmap_cache_behaviour exGen exNeverSimilar exEntry exCallNone).1
      ⟨rfl, rfl, rfl, rfl, rfl, rfl, rfl, rfl, fun r hr => nomatch hr⟩,
   (get_qmap_cache_behaviour exGen exNeverSimilar exEntry exCallSome).2.1
      (fun hh => by
        have := hh.2.2.2.2.2.2.2.2 true rfl
        simp [exNeverSimilar] at this),
   (get_qmap_cache_behaviour exGen exAlwaysSimilar exEntry exCallSome).2.2.2
      ⟨rfl, rfl, rfl, rfl, rfl, rfl, rfl, rfl, fun r _ => rfl⟩ rfl rfl⟩

/-- C5 (amended): the position-dependent phase factor
`exp(−i·(v[0]·q_x + v[1]·q_y + v[2]·q_z))`, evaluated on the scattering-vector
field the step is given (`_propagate` hands it the unrotated `qmap0`), is
applied to a particle's amplitude field exactly when some component of the
position offset `v` exceeds the `numpy.allclose` tolerance `1e-12` in
absolute value; a particle whose offset components are all `≤ 1e-12` —
a small non-zero offset included — has its amplitude added unchanged. -/
theorem applyPhase_spec {P : Type} (v : Fin 3 → ℝ) (qmap0 : P → Fin 3 → ℝ)
    (F : P → ℂ) :
    ((∃ i, 1e-12 < |v i|) →
       applyPhase v qmap0 F
         = fun p => F p * Complex.exp (-Complex.I *
             ((∑ i, v i * qmap0 p i : ℝ) : ℂ))) ∧
    ((∀ i, |v i| ≤ 1e-12) → applyPhase v qmap0 F = F) := by
  constructor
  · intro h
    have hne : ¬ ∀ i, |v i| ≤ 1e-12 := by
      push_neg
      exact h
    unfold applyPhase
    rw [if_neg hne]
  · intro h
    unfold applyPhase
    rw [if_pos h]

/-- C5 counterexample: the particle offset `v = (1e-13, 0, 0)` is non-zero,
yet `numpy.allclose(v, 0, atol=1E-12)` holds, so the code adds the amplitude
unchanged; on the field `qmap0 = (1e13·π, 0, 0)` the claimed phase factor is
`exp(−i·π) = −1 ≠ 1`, so the claimed multiplication does not happen. -/
theorem applyPhase_small_offset_counterexample :
    (![(1e-13 : ℝ), 0, 0] ≠ fun _ => (0 : ℝ)) ∧
    applyPhase ![(1e-13 : ℝ), 0, 0]
        (fun _ : Unit => ![(1e13 : ℝ) * Real.pi, 0, 0]) (fun _ => 1) ()
      ≠ (fun _ : Unit => (1 : ℂ)) ()
          * Complex.exp (-Complex.I *
              ((∑ i, (![(1e-13 : ℝ), 0, 0]) i
                  * (![(1e13 : ℝ) * Real.pi, 0, 0]) i : ℝ) : ℂ)) := by
  have hsmall : ∀ i : Fin 3, |(![(1e-13 : ℝ), 0, 0]) i| ≤ 1e-12 := by
    intro i
    fin_cases i <;> norm_num [abs_le]
  have happ : applyPhase ![(1e-13 : ℝ), 0, 0]
      (fun _ : Unit => ![(1e13 : ℝ) * Real.pi, 0, 0]) (fun _ => 1)
        = (fun _ => 1) := by
    unfold applyPhase
    rw [if_pos hsmall]
  have hsum : (∑ i, (![(1e-13 : ℝ), 0, 0]) i
      * (![(1e13 : ℝ) * Real.pi, 0, 0]) i) = Real.pi := by
    rw [Fin.sum_univ_three]
    simp only [Matrix.cons_val_zero, Matrix.cons_val_one, Matrix.head_cons,
      Matrix.cons_val_two, Matrix.tail_cons]
    rw [← mul_assoc]
    norm_num
  have hexp : Complex.exp (-Complex.I * (Real.pi : ℂ)) = -1 := by
    rw [show -Complex.I * (Real.pi : ℂ) = -((Real.pi : ℂ) * Complex.I) by ring,
      Complex.exp_neg, Complex.exp_pi_mul_I]
    norm_num
  refine ⟨fun h0 => ?_, fun heq => ?_⟩
  · have h00 := congrFun h0 0
    simp at h00
    exact absurd h00 (by norm_num)
  · rw [congrFun happ (), hsum, hexp] at heq
    exact absurd heq (by norm_num)

/-- Witness for C5: a particle at offset `(1, 0, 0)` gets the phase factor, a
particle at the origin is added unchanged. -/
theorem applyPhase_spec_witness :
    applyPhase ![(1 : ℝ), 0, 0] (fun _ : Unit => ![(1 : ℝ), 0, 0]) (fun _ => 1)
        = (fun p => (fun _ : Unit => (1 : ℂ)) p
            * Complex.exp (-Complex.I *
                ((∑ i, (![(1 : ℝ), 0, 0]) i * (![(1 : ℝ), 0, 0]) i : ℝ) : ℂ))) ∧
    applyPhase ![(0 : ℝ), 0, 0] (fun _ : Unit => ![(1 : ℝ), 0, 0]) (fun _ => 1)
        = (fun _ => 1) :=
  ⟨(applyPhase_spec ![(1 : ℝ), 0, 0] (fun _ : Unit => ![(1 : ℝ), 0, 0])
      (fun _ => 1)).1 ⟨0, by norm_num⟩,
   (applyPhase_spec ![(0 : ℝ), 0, 0] (fun _ : Unit => ![(1 : ℝ), 0, 0])
      (fun _ => 1)).2 (fun i => by fin_cases i <;> simp <;> norm_num)⟩

/-- Helper: appending association lists is associative. -/
theorem PyDict.append_assoc {α : Type} :
    ∀ (a b c : PyDict α), (a.append b).append c = a.append (b.append c)
  | .nil, _, _ => rfl
  | .cons k v rest, b, c => by
    simp [PyDict.append, PyDict.append_assoc rest b c]

/-- Helper: key membership distributes over append. -/
theorem PyDict.hasKey_append {α : Type} [DecidableEq α] :
    ∀ (a b : PyDict α) (x : α),
      (a.append b).hasKey x = (a.hasKey x || b.hasKey x)
  | .nil, _, _ => rfl
  | .cons k v rest, b, x => by
    simp [PyDict.append, PyDict.hasKey, PyDict.hasKey_append rest b x,
      Bool.or_assoc]

/-- Helper: erasing a key absent from the prefix happens in the suffix. -/
theorem PyDict.erase_append {α : Type} [DecidableEq α] :
    ∀ (pre d : PyDict α) (k : α), pre.hasKey k = false →
      (pre.append d).erase k = pre.append (d.erase k)
  | .nil, _, _, _ => rfl
  | .cons k2 v2 rest, d, k, h => by
    simp [PyDict.hasKey] at h
    simp [PyDict.append, PyDict.erase, h.1,
      PyDict.erase_append rest d k h.2]

/-- Helper: looking up a key absent from the prefix looks in the suffix. -/
theorem PyDict.find?_append {α : Type} [DecidableEq α] :
    ∀ (pre d : PyDict α) (k : α), pre.hasKey k = false →
      (pre.append d).find? k = d.find? k
  | .nil, _, _, _ => rfl
  | .cons k2 v2 rest, d, k, h => by
    simp [PyDict.hasKey] at h
    simp [PyDict.append, PyDict.find?, h.1,
      PyDict.find?_append rest d k h.2]

/-- Helper: overwriting a key absent from the prefix happens in the suffix. -/
theorem PyDict.setVal_append {α : Type} [DecidableEq α] :
    ∀ (pre d : PyDict α) (k : α) (nv : PyVal α), pre.hasKey k = false →
      (pre.append d).setVal k nv = pre.append (d.setVal k nv)
  | .nil, _, _, _, _ => rfl
  | .cons k2 v2 rest, d, k, nv, h => by
    simp [PyDict.hasKey] at h
    simp [PyDict.append, PyDict.setVal, h.1,
      PyDict.setVal_append rest d k nv h.2]

/-- Helper: the empty dictionary is disjoint from everything. -/
theorem keysDisjoint_nil {α : Type} [DecidableEq α] :
    ∀ d : PyDict α, keysDisjoint PyDict.nil d = true
  | .nil => rfl
  | .cons k v rest => by
    simp [keysDisjoint, PyDict.hasKey, keysDisjoint_nil rest]

/-- Helper: extending a disjoint prefix by a key that does not occur in the
suffix keeps it disjoint. -/
theorem keysDisjoint_snoc {α : Type} [DecidableEq α] :
    ∀ (pre d : PyDict α) (k : α) (v : PyVal α), keysDisjoint pre d = true →
      d.hasKey k = false → keysDisjoint (pre.append (.cons k v .nil)) d = true
  | _, .nil, _, _, _, _ => rfl
  | pre, .cons k2 v2 rest, k, v, hdisj, hk => by
    simp [keysDisjoint] at hdisj
    simp [PyDict.hasKey] at hk
    have hkk : (k = k2) = False := eq_false (fun h => hk.1 h.symm)
    simp [keysDisjoint, PyDict.hasKey_append, hdisj.1, PyDict.hasKey, hkk,
      keysDisjoint_snoc pre rest k v hdisj.2 hk.2]

/-- Helper: the snapshot/state loop of `remove_from_dict`, run on a snapshot
`d` whose keys are distinct and none of whose `priv` keys holds a dictionary,
against a state `pre.append d` whose prefix `pre` is key-disjoint from `d`,
terminates normally and leaves `pre` untouched while cleaning `d`. -/
theorem processItems_clean {α : Type} [DecidableEq α] (priv : α → Bool) :
    ∀ (n : ℕ) (d pre : PyDict α), sizeOf d ≤ n →
      okDict priv d = true → keysNodup d = true → keysDisjoint pre d = true →
      processItems priv d (pre.append d)
        = Except.ok (pre.append (cleanDict priv d)) := by
  intro n
  induction n with
  | zero =>
    intro d pre hle _ _ _
    cases d with
    | nil => rfl
    | cons k v rest =>
      exfalso
      simp at hle
  | succ m ih =>
    intro d pre hle hok hnd hdisj
    cases d with
    | nil => rfl
    | cons k v rest =>
      simp only [okDict, Bool.and_eq_true] at hok
      obtain ⟨hokv, hokr⟩ := hok
      simp only [keysNodup, Bool.and_eq_true, Bool.not_eq_true'] at hnd
      obtain ⟨⟨hkr, hndv⟩, hndr⟩ := hnd
      simp only [keysDisjoint, Bool.and_eq_true, Bool.not_eq_true'] at hdisj
      obtain ⟨hpk, hdisjr⟩ := hdisj
      have hsize : sizeOf rest ≤ m := by simp at hle; omega
      cases hp : priv k with
      | true =>
        cases v with
        | dict sub =>
          exfalso
          simp [okVal, hp] at hokv
        | int z =>
          have hstep : processItems priv (.cons k (.int z) rest)
              (pre.append (.cons k (.int z) rest))
              = processItems priv rest
                  ((pre.append (.cons k (.int z) rest)).erase k) := by
            simp [processItems, hp]
          rw [hstep, PyDict.erase_append pre _ k hpk]
          have her : (PyDict.cons k (PyVal.int z) rest).erase k = rest := by
            simp [PyDict.erase]
          rw [her, ih rest pre hsize hokr hndr hdisjr]
          simp [cleanDict, hp]
      | false =>
        cases v with
        | int z =>
          have hstep : processItems priv (.cons k (.int z) rest)
              (pre.append (.cons k (.int z) rest))
              = processItems priv rest (pre.append (.cons k (.int z) rest)) := by
            simp [processItems, hp]
          have hsplit : pre.append (.cons k (.int z) rest)
              = (pre.append (.cons k (.int z) .nil)).append rest := by
            rw [PyDict.append_assoc]
            rfl
          rw [hstep, hsplit,
            ih rest (pre.append (.cons k (.int z) .nil)) hsize hokr hndr
              (keysDisjoint_snoc pre rest k (.int z) hdisjr hkr)]
          rw [PyDict.append_assoc]
          simp [cleanDict, cleanVal, hp, PyDict.append]
        | dict sub =>
          simp only [okVal, hp, Bool.not_false, Bool.true_and] at hokv
          simp only [nodupVal] at hndv
          have hsub : sizeOf sub ≤ m := by simp at hle; omega
          have hfind : (pre.append (.cons k (.dict sub) rest)).find? k
              = some (.dict sub) := by
            rw [PyDict.find?_append pre _ k hpk]
            simp [PyDict.find?]
          have hrec : processItems priv sub sub
              = Except.ok (cleanDict priv sub) := by
            simpa using ih sub .nil hsub hokv hndv (keysDisjoint_nil sub)
          have hstep : processItems priv (.cons k (.dict sub) rest)
              (pre.append (.cons k (.dict sub) rest))
              = processItems priv rest
                  ((pre.append (.cons k (.dict sub) rest)).setVal k
                    (.dict (cleanDict priv sub))) := by
            simp [processItems, removeVal, hp, hfind, hrec]
          rw [hstep, PyDict.setVal_append pre _ k _ hpk]
          have hset : (PyDict.cons k (PyVal.dict sub) rest).setVal k
              (.dict (cleanDict priv sub))
              = .cons k (.dict (cleanDict priv sub)) rest := by
            simp [PyDict.setVal]
          rw [hset]
          have hsplit : pre.append (.cons k (.dict (cleanDict priv sub)) rest)
              = (pre.append
                  (.cons k (.dict (cleanDict priv sub)) .nil)).append rest := by
            rw [PyDict.append_assoc]
            rfl
          rw [hsplit, ih rest _ hsize hokr hndr
            (keysDisjoint_snoc pre rest k _ hdisjr hkr)]
          rw [PyDict.append_assoc]
          simp [cleanDict, cleanVal, hp, PyDict.append]

/-- C7 counterexample: on the dictionary `{"_a": {}}` — a "_"-prefixed key
whose value is a (nested) dictionary — `remove_from_dict` deletes the key and
then evaluates `D[k]` on it, raising a KeyError instead of terminating
normally, refuting the claim that it terminates normally on every input
dictionary.  (Keys are numbers with `priv = (k == 0)` standing for
`startswith("_")`.) -/
theorem remove_from_dict_keyerror_counterexample :
    remove_from_dict (fun k : ℕ => k == 0) (.cons 0 (.dict .nil) .nil)
      = Except.error () := rfl

/-- C7 (amended): on every dictionary with pairwise-distinct keys at each
level in which no "_"-prefixed key maps to a dictionary value,
`remove_from_dict` terminates normally and returns the dictionary with
exactly the "_"-prefixed keys (at all nesting levels) removed and every other
key preserved with its (recursively cleaned) value; when some "_"-prefixed
key does map to a dictionary it raises a KeyError instead. -/
theorem remove_from_dict_clean {α : Type} [DecidableEq α] (priv : α → Bool)
    (d : PyDict α) (hok : okDict priv d = true) (hnd : keysNodup d = true) :
    remove_from_dict priv d = Except.ok (cleanDict priv d) := by
  simpa [remove_from_dict] using
    processItems_clean priv (sizeOf d) d PyDict.nil le_rfl hok hnd
      (keysDisjoint_nil d)

/-- Witness for C7: a dictionary with a "_"-like key holding a scalar and a
public key holding a nested dictionary that itself has a "_"-like key. -/
theorem remove_from_dict_clean_witness :
    remove_from_dict (fun k : ℕ => k == 0)
        (.cons 0 (.int 5) (.cons 1 (.dict (.cons 0 (.int 7) .nil)) .nil))
      = Except.ok (cleanDict (fun k : ℕ => k == 0)
          (.cons 0 (.int 5) (.cons 1 (.dict (.cons 0 (.int 7) .nil)) .nil))) :=
  remove_from_dict_clean (fun k : ℕ => k == 0)
    (.cons 0 (.int 5) (.cons 1 (.dict (.cons 0 (.int 7) .nil)) .nil))
    (by decide) (by decide)

end Condor
